import Mathlib

/-!
Verification of the portfolio-overlap engine and the cache / rate-limit layer
of the tindercast repository.

The TypeScript source is shallowly embedded:
* JavaScript objects used as string-keyed dictionaries (`Record`, `Map`,
  `rateLimits`) become association lists `List (String × α)` with
  insertion-order-preserving update, matching JS object key semantics.
* JS numbers carrying USD amounts are modelled as rationals `ℚ`; a division
  whose result can be non-finite is modelled with `JsNum`, which has explicit
  `nan` / `inf` / `neginf` values, since `0/0 = NaN` in JS rather than an
  exception or `0`.
* `Date.now()` timestamps are naturals (milliseconds); every function that
  reads the clock takes `now` explicitly, every function that mutates module
  state takes and returns that state explicitly.
* Optional / possibly-undefined JS fields become `Option`; the JS
  short-circuit `x || d` on strings (falsy: `undefined`, `""`) and numbers
  (falsy: `undefined`, `0`) is embedded by `strOr` / `numOr`.
* Code that can raise a `TypeError` (a property access on a nullish value)
  returns `Except Unit`.
-/

/-- JS object used as a string-keyed dictionary: `m[k]` read. -/
def mapGet {α : Type} : List (String × α) → String → Option α
  | [], _ => none
  | (k', v') :: rest, k => if k' = k then some v' else mapGet rest k

/-- JS object write `m[k] = v` (also `Map.set`): replaces in place if the key
exists, else appends, matching JS key-insertion-order semantics. -/
def mapSet {α : Type} : List (String × α) → String → α → List (String × α)
  | [], k, v => [(k, v)]
  | (k', v') :: rest, k, v =>
    if k' = k then (k, v) :: rest else (k', v') :: mapSet rest k v

/-- JS `delete m[k]`. -/
def mapDel {α : Type} (m : List (String × α)) (k : String) : List (String × α) :=
  m.filter (fun p => p.1 ≠ k)

/-- JS `Object.keys(m)`. -/
def mapKeys {α : Type} (m : List (String × α)) : List String :=
  m.map Prod.fst

theorem mapGet_mapSet {α : Type} (m : List (String × α)) (k k' : String) (v : α) :
    mapGet (mapSet m k v) k' = if k' = k then some v else mapGet m k' := by
  induction m with
  | nil =>
    simp only [mapSet, mapGet]
    by_cases h : k = k'
    · rw [if_pos h, if_pos h.symm]
    · rw [if_neg h, if_neg (fun hh : k' = k => h hh.symm)]
  | cons p rest ih =>
    obtain ⟨k₀, v₀⟩ := p
    by_cases h₀ : k₀ = k
    · subst h₀
      simp only [mapSet, if_pos rfl, mapGet]
      by_cases h₁ : k₀ = k'
      · rw [if_pos h₁, if_pos h₁.symm]
      · rw [if_neg h₁, if_neg (fun hh : k' = k₀ => h₁ hh.symm), if_neg h₁]
    · simp only [mapSet, if_neg h₀, mapGet]
      by_cases h₁ : k₀ = k'
      · have hk : ¬ k' = k := fun hh => h₀ (h₁.trans hh)
        rw [if_pos h₁, if_neg hk, if_pos h₁]
      · rw [if_neg h₁, ih, if_neg h₁]

theorem mapGet_mapDel_self {α : Type} (m : List (String × α)) (k : String) :
    mapGet (mapDel m k) k = none := by
  induction m with
  | nil => rfl
  | cons p rest ih =>
    obtain ⟨k₀, v₀⟩ := p
    by_cases h₀ : k₀ = k <;> simp [mapDel, mapGet, h₀, *] at *
    · exact ih
    · exact ih

theorem mapKeys_mapDel_not_mem {α : Type} (m : List (String × α)) (k : String) :
    k ∉ mapKeys (mapDel m k) := by
  intro hmem
  simp only [mapKeys, mapDel, List.mem_map, List.mem_filter] at hmem
  obtain ⟨p, ⟨_, hp⟩, hk⟩ := hmem
  simp [hk] at hp

/-! ## Data model: `Asset`, `CommonAsset`, `SimilarityMetrics` -/

/-- One token holding in one wallet (interface `Asset` in
`src/utils/neynar.ts`).  `address` and `symbol` may be `undefined` when the
normalizer's input lacked them, hence `Option String`. -/
structure Asset where
  type : String := "token"
  address : Option String
  network : String
  symbol : Option String
  name : String
  balance : String
  balanceUSD : ℚ
  price : ℚ
  imgUrl : String
deriving DecidableEq, Repr

/-- A `{balance, balanceUSD}` pair inside `CommonAsset`. -/
structure BalancePair where
  balance : String
  balanceUSD : ℚ
deriving DecidableEq, Repr

/-- Interface `CommonAsset` in `src/utils/neynar.ts`. -/
structure CommonAsset where
  symbol : Option String
  name : String
  network : String
  address : Option String
  type : String := "token"
  imgUrl : String
  user1Balance : BalancePair
  user2Balance : BalancePair
  totalBalanceUSD : ℚ
deriving DecidableEq, Repr

/-- A JS number that may be the result of a division: finite rational, `NaN`,
or a signed infinity. -/
inductive JsNum where
  | num : ℚ → JsNum
  | nan : JsNum
  | inf : JsNum
  | neginf : JsNum
deriving DecidableEq, Repr

/-- JS division `a / b` of two finite numbers. -/
def jsDiv (a b : ℚ) : JsNum :=
  if b = 0 then
    if a = 0 then .nan else if 0 < a then .inf else .neginf
  else .num (a / b)

/-- JS multiplication of a possibly non-finite number by the positive finite
constant `100`. -/
def jsMul100 : JsNum → JsNum
  | .num q => .num (q * 100)
  | .nan => .nan
  | .inf => .inf
  | .neginf => .neginf

/-- Interface `SimilarityMetrics` in `src/utils/neynar.ts`.  The two
percentage fields are results of JS divisions and may be non-finite. -/
structure SimilarityMetrics where
  assetCountSimilarity : JsNum
  valueOverlap : JsNum
  user1TotalUSD : ℚ
  user2TotalUSD : ℚ
  commonAssetsUSD : ℚ
deriving DecidableEq, Repr

/-! ## Raw portfolio shape (input of `extractTokenAssets`, and the
`portfolio1` / `portfolio2` arguments of `calculateSimilarity`) -/

/-- The `token.network` object: `{ name?: string }`. -/
structure NetworkObj where
  name : Option String
deriving DecidableEq, Repr

/-- One `edge.node` token record, every field possibly absent. -/
structure TokenNode where
  tokenAddress : Option String
  network : Option NetworkObj
  symbol : Option String
  name : Option String
  balance : Option String
  balanceUSD : Option ℚ
  price : Option ℚ
  imgUrlV2 : Option String
deriving DecidableEq, Repr

/-- One element of `byToken.edges`: `{ node?: TokenNode }`. -/
structure EdgeObj where
  node : Option TokenNode
deriving DecidableEq, Repr

/-- `portfolio.tokenBalances.byToken`; `edges` may be absent, and an element
of the edges array may itself be `null` (`Option EdgeObj`). -/
structure ByToken where
  edges : Option (List (Option EdgeObj))
deriving DecidableEq, Repr

/-- `portfolio.tokenBalances`. -/
structure TokenBalances where
  totalBalanceUSD : Option ℚ
  byToken : Option ByToken
deriving DecidableEq, Repr

/-- A raw portfolio object; the whole portfolio may be nullish. -/
structure Portfolio where
  tokenBalances : Option TokenBalances
deriving DecidableEq, Repr

/-- JS `x || d` where `x` is a string or `undefined` (falsy strings: `""`). -/
def strOr (x : Option String) (d : String) : String :=
  match x with
  | some s => if s = "" then d else s
  | none => d

/-- JS `x || d` where `x` is a finite number or `undefined` (falsy: `0`). -/
def numOr (x : Option ℚ) (d : ℚ) : ℚ :=
  match x with
  | some q => if q = 0 then d else q
  | none => d

/-- The template-literal rendering of a possibly-`undefined` string. -/
def undefinedStr : Option String → String
  | some s => s
  | none => "undefined"

/-- The asset pushed for one token node inside `extractTokenAssets`'s loop
(`assets.push({...})`, lines 356-366 of `src/utils/neynar.ts`). -/
def mkTokenAsset (token : TokenNode) : Asset :=
  { type := "token"
    address := token.tokenAddress
    network := strOr (token.network.bind NetworkObj.name) "unknown"
    symbol := token.symbol
    name := strOr token.name (strOr token.symbol "Unknown Token")
    balance := strOr token.balance "0"
    balanceUSD := numOr token.balanceUSD 0
    price := numOr token.price 0
    imgUrl := strOr token.imgUrlV2 "" }

/-- The `tokenEdges.forEach` loop of `extractTokenAssets`: a `null` element of
the edges array makes `edge.node` raise a `TypeError` (`Except.error`); an
edge whose `node` is nullish is skipped by the `if (token)` guard. -/
def extractFromEdges : List (Option EdgeObj) → Except Unit (List Asset)
  | [] => .ok []
  | none :: _ => .error ()
  | some edge :: rest =>
    match edge.node with
    | some token => do
      let tail ← extractFromEdges rest
      .ok (mkTokenAsset token :: tail)
    | none => extractFromEdges rest

/-- `extractTokenAssets` (`src/utils/neynar.ts` lines 345-371): the guard
returns `[]` when `portfolio`, `tokenBalances` or `byToken` is missing;
`edges || []` defaults a missing edges array. -/
def extractTokenAssets (portfolio : Option Portfolio) : Except Unit (List Asset) :=
  match portfolio with
  | none => .ok []
  | some p =>
    match p.tokenBalances with
    | none => .ok []
    | some tb =>
      match tb.byToken with
      | none => .ok []
      | some bt => extractFromEdges (bt.edges.getD [])

/-- `getAssetKey` (`src/utils/neynar.ts` lines 378-381):
`` `${asset.network}:${asset.address}` ``. -/
def getAssetKey (asset : Asset) : String :=
  asset.network ++ ":" ++ undefinedStr asset.address

/-- The identity key carried by a `CommonAsset` (same template as
`getAssetKey`; the matcher copies `network` and `address` from `asset1`). -/
def commonAssetKey (c : CommonAsset) : String :=
  c.network ++ ":" ++ undefinedStr c.address

/-- The `asset2Map` built by `findCommonAssets`: `assets2.forEach(asset =>
map.set(getAssetKey(asset), asset))` — last write wins on duplicate keys. -/
def buildAssetMap (assets2 : List Asset) : List (String × Asset) :=
  assets2.foldl (fun m asset => mapSet m (getAssetKey asset) asset) []

/-- The `CommonAsset` pushed for a matching pair (`findCommonAssets`,
lines 405-421 of `src/utils/neynar.ts`). -/
def mkCommonAsset (asset1 matched : Asset) : CommonAsset :=
  { symbol := asset1.symbol
    name := asset1.name
    network := asset1.network
    address := asset1.address
    type := "token"
    imgUrl := asset1.imgUrl
    user1Balance := ⟨asset1.balance, asset1.balanceUSD⟩
    user2Balance := ⟨matched.balance, matched.balanceUSD⟩
    totalBalanceUSD := asset1.balanceUSD + matched.balanceUSD }

/-- The `common` array before sorting: for each asset of `assets1`, probe
`asset2Map` and push on a hit. -/
def commonUnsorted (assets1 assets2 : List Asset) : List CommonAsset :=
  let asset2Map := buildAssetMap assets2
  assets1.filterMap fun asset1 =>
    (mapGet asset2Map (getAssetKey asset1)).map (mkCommonAsset asset1)

/-- The comparator `(a, b) => b.totalBalanceUSD - a.totalBalanceUSD`: `a`
stays before `b` exactly when `b.totalBalanceUSD ≤ a.totalBalanceUSD`. -/
def byTotalDesc (a b : CommonAsset) : Prop :=
  b.totalBalanceUSD ≤ a.totalBalanceUSD

instance : DecidableRel byTotalDesc := fun a b =>
  inferInstanceAs (Decidable (b.totalBalanceUSD ≤ a.totalBalanceUSD))

instance : IsTotal CommonAsset byTotalDesc :=
  ⟨fun a b => le_total b.totalBalanceUSD a.totalBalanceUSD⟩

instance : IsTrans CommonAsset byTotalDesc :=
  ⟨fun _ _ _ h₁ h₂ => le_trans h₂ h₁⟩

/-- `findCommonAssets` (`src/utils/neynar.ts` lines 389-427).
`Array.prototype.sort` is stable, so `common.sort(cmp)` is embedded as the
stable `List.insertionSort` over the comparator's order. -/
def findCommonAssets (assets1 assets2 : List Asset) : List CommonAsset :=
  List.insertionSort byTotalDesc (commonUnsorted assets1 assets2)

/-- The optional chain `portfolio?.tokenBalances?.totalBalanceUSD`. -/
def aggTotalBalanceUSD (portfolio : Option Portfolio) : Option ℚ :=
  (portfolio.bind Portfolio.tokenBalances).bind TokenBalances.totalBalanceUSD

/-- `assets.reduce((sum, asset) => sum + (asset.balanceUSD || 0), 0)`;
`x || 0` is the identity on the rational model of `balanceUSD`. -/
def sumBalanceUSD (assets : List Asset) : ℚ :=
  assets.foldl (fun sum asset => sum + asset.balanceUSD) 0

/-- `calculateSimilarity` (`src/utils/neynar.ts` lines 438-465).
`portfolio?.tokenBalances?.totalBalanceUSD || fallback` uses the aggregate
only when present and truthy (nonzero). -/
def calculateSimilarity (user1Assets user2Assets : List Asset)
    (commonAssets : List CommonAsset)
    (portfolio1 portfolio2 : Option Portfolio) : SimilarityMetrics :=
  let user1Total := numOr (aggTotalBalanceUSD portfolio1) (sumBalanceUSD user1Assets)
  let user2Total := numOr (aggTotalBalanceUSD portfolio2) (sumBalanceUSD user2Assets)
  let commonTotal := commonAssets.foldl
    (fun sum asset => sum + asset.totalBalanceUSD / 2) 0
  let valueOverlap := jsMul100 (jsDiv commonTotal ((user1Total + user2Total) / 2))
  let assetCountSimilarity := jsMul100 (jsDiv (commonAssets.length : ℚ)
    (max user1Assets.length user2Assets.length : ℚ))
  { assetCountSimilarity := assetCountSimilarity
    valueOverlap := valueOverlap
    user1TotalUSD := user1Total
    user2TotalUSD := user2Total
    commonAssetsUSD := commonTotal }

/-! ## Rate limiter (`src/utils/neynar.ts` lines 10-76) -/

/-- One per-endpoint record of `rateLimits`: `{requests, resetTime}`. -/
structure RLEntry where
  requests : ℕ
  resetTime : ℕ
deriving DecidableEq, Repr

/-- The module-level mutable state of the rate limiter: the `rateLimits`
dictionary plus `globalRequestCount` and `globalResetTime`. -/
structure RLState where
  rateLimits : List (String × RLEntry)
  globalRequestCount : ℕ
  globalResetTime : ℕ
deriving DecidableEq, Repr

/-- Char-list helper for JS `String.prototype.includes`: does the list start
with `pat`? -/
def startsWithChars : List Char → List Char → Bool
  | _, [] => true
  | [], _ :: _ => false
  | c :: cs, p :: ps => c == p && startsWithChars cs ps

/-- Char-list helper: does `pat` occur contiguously anywhere in the list? -/
def includesChars (pat : List Char) : List Char → Bool
  | [] => pat.isEmpty
  | c :: cs => startsWithChars (c :: cs) pat || includesChars pat cs

/-- JS `s.includes(pat)`. -/
def strIncludes (s pat : String) : Bool :=
  includesChars pat.toList s.toList

/-- The per-endpoint threshold used by `checkRateLimit` (lines 45-49):
5000 for `/frame/validate`, 3000 for signer endpoints, 300 by default. -/
def endpointLimit (endpoint : String) : ℕ :=
  if endpoint = "/frame/validate" then 5000
  else if strIncludes endpoint "/signer" then 3000
  else 300

/-- `checkRateLimit` (lines 27-54).  The function both answers whether the
request may proceed and mutates the module state: it resets the global
counter when the global window has passed, and resets (or initializes) the
endpoint's entry when its window has passed. -/
def checkRateLimit (endpoint : String) (now : ℕ) (st : RLState) : Bool × RLState :=
  let st1 :=
    if now > st.globalResetTime then
      { st with globalRequestCount := 0, globalResetTime := now + 60000 }
    else st
  let st2 :=
    match mapGet st1.rateLimits endpoint with
    | none =>
      { st1 with rateLimits := mapSet st1.rateLimits endpoint ⟨0, now + 60000⟩ }
    | some entry =>
      if now > entry.resetTime then
        { st1 with rateLimits := mapSet st1.rateLimits endpoint ⟨0, now + 60000⟩ }
      else st1
  let entry := (mapGet st2.rateLimits endpoint).getD ⟨0, now + 60000⟩
  let isWithinEndpointLimit : Bool := decide (entry.requests < endpointLimit endpoint)
  let isWithinGlobalLimit : Bool := decide (st2.globalRequestCount < 500)
  (isWithinEndpointLimit && isWithinGlobalLimit, st2)

/-- `updateRateLimit` (lines 60-76): `rateLimits[endpoint].requests++` and
`globalRequestCount++`.  When the endpoint has no entry the TS code would
raise a `TypeError` (`none` here); it is only called after `checkRateLimit`
has installed the entry.  The `console.warn` calls carry no state. -/
def updateRateLimit (endpoint : String) (st : RLState) : Option RLState :=
  match mapGet st.rateLimits endpoint with
  | none => none
  | some entry => some
    { st with
      rateLimits := mapSet st.rateLimits endpoint ⟨entry.requests + 1, entry.resetTime⟩
      globalRequestCount := st.globalRequestCount + 1 }

/-! ## In-memory TTL cache (the `MemoryCache` module):
`MemoryCache.get/set/keys` and `withCache` -/

/-- A stored cache entry `{value, expiry}`; the value is an arbitrary JS
value, so it may itself be `null` (`none`). -/
structure CacheVal (V : Type) where
  value : Option V
  expiry : ℕ
deriving DecidableEq, Repr

/-- The private `cache` record of `MemoryCache`. -/
def Cache (V : Type) : Type := List (String × CacheVal V)

instance {V : Type} [DecidableEq V] : DecidableEq (Cache V) :=
  inferInstanceAs (DecidableEq (List (String × CacheVal V)))

/-- `MemoryCache.get` (lines 18-32): `null` if absent; if `Date.now()` is
past the entry's expiry the entry is deleted and `null` returned; otherwise
the stored value is returned.  The first component is the returned value,
the second the cache state after the call. -/
def cacheGet {V : Type} (c : Cache V) (key : String) (now : ℕ) : Option V × Cache V :=
  match mapGet c key with
  | none => (none, c)
  | some entry =>
    if now > entry.expiry then (none, mapDel c key)
    else (entry.value, c)

/-- `MemoryCache.set` (lines 40-45): unconditional overwrite with
`expiry = Date.now() + ttlSeconds * 1000`. -/
def cacheSet {V : Type} (c : Cache V) (key : String) (value : Option V)
    (ttlSeconds now : ℕ) : Cache V :=
  mapSet c key ⟨value, now + ttlSeconds * 1000⟩

/-- `MemoryCache.keys` (lines 66-68): `Object.keys(this.cache)`. -/
def cacheKeys {V : Type} (c : Cache V) : List String :=
  mapKeys c

/-- `withCache` (lines 113-131).  The producer `fn` is modelled by the value
`fnResult` it would resolve to.  Returns the produced/cached value, the cache
state afterwards, and whether the producer was invoked. -/
def withCache {V : Type} (c : Cache V) (key : String) (fnResult : Option V)
    (ttlSeconds now : ℕ) : Option V × Cache V × Bool :=
  match cacheGet c key now with
  | (some cached, c1) => (some cached, c1, false)
  | (none, c1) => (fnResult, cacheSet c1 key fnResult ttlSeconds now, true)

/-! ## Concrete example inputs -/

/-- Wallet A's single asset: network `"ethereum"`, address `"0xAAA"`,
`balanceUSD = 100`. -/
def assetA100 : Asset :=
  { address := some "0xAAA", network := "ethereum", symbol := some "AAA"
    name := "Token A", balance := "1", balanceUSD := 100, price := 0, imgUrl := "" }

/-- Wallet B's holding of the same identity key, `balanceUSD = 50`. -/
def assetB50 : Asset :=
  { address := some "0xAAA", network := "ethereum", symbol := some "AAA"
    name := "Token A", balance := "2", balanceUSD := 50, price := 0, imgUrl := "" }

/-- A single 5-USD asset, used to exhibit aggregate/sum disagreement. -/
def assetE5 : Asset :=
  { address := some "0xE", network := "ethereum", symbol := some "E"
    name := "Token E", balance := "1", balanceUSD := 5, price := 0, imgUrl := "" }

/-- A portfolio whose upstream aggregate `totalBalanceUSD` is present and
equal to `0`. -/
def portfolioZeroAgg : Option Portfolio :=
  some ⟨some ⟨some 0, none⟩⟩

/-- A portfolio whose upstream aggregate `totalBalanceUSD` is `7`. -/
def portfolioAgg7 : Option Portfolio :=
  some ⟨some ⟨some 7, none⟩⟩

/-! ## Claim C1 -/

/-- C1: for wallet A holding exactly one asset (network `"ethereum"`, address
`"0xAAA"`, `balanceUSD = 100`) and wallet B holding the same identity key at
`balanceUSD = 50`, with no upstream total aggregates supplied,
`findCommonAssets` returns exactly one common asset, with
`totalBalanceUSD = 150`, and `calculateSimilarity` returns
`commonAssetsUSD = 75` and `valueOverlap = 100`. -/
theorem exact_overlap_scenario :
    (findCommonAssets [assetA100] [assetB50]).map CommonAsset.totalBalanceUSD = [150] ∧
    (calculateSimilarity [assetA100] [assetB50]
        (findCommonAssets [assetA100] [assetB50]) none none).commonAssetsUSD = 75 ∧
    (calculateSimilarity [assetA100] [assetB50]
        (findCommonAssets [assetA100] [assetB50]) none none).valueOverlap = JsNum.num 100 := by
  norm_num [findCommonAssets, commonUnsorted, buildAssetMap, mapGet, mapSet,
    getAssetKey, undefinedStr, mkCommonAsset, List.insertionSort, List.orderedInsert,
    calculateSimilarity, aggTotalBalanceUSD, sumBalanceUSD, numOr, jsDiv, jsMul100,
    assetA100, assetB50]

/-! ## Claim C2 -/

/-- C2 counterexample: with both asset lists (and the common list) empty and
no aggregates, `assetCountSimilarity` is not `0` — the `max(0,0)` division is
not guarded, and `(0 / max(0,0)) * 100` is `NaN` in JS. -/
theorem empty_similarity_not_zero :
    (calculateSimilarity [] [] [] none none).assetCountSimilarity ≠ JsNum.num 0 := by
  norm_num [calculateSimilarity, jsDiv, jsMul100]
  exact fun h => JsNum.noConfusion h

/-- C2 (amended): when both asset lists are empty `calculateSimilarity` does
not throw (the embedding is a total function precisely because JS division by
zero yields `NaN`, not an exception), but `assetCountSimilarity` is `NaN`,
not `0`: the `max(0,0)` division is unguarded. -/
theorem empty_similarity_is_nan (p1 p2 : Option Portfolio) :
    (calculateSimilarity [] [] [] p1 p2).assetCountSimilarity = JsNum.nan := by
  simp [calculateSimilarity, jsDiv, jsMul100]

/-! ## Claim C6 -/

/-- C6 counterexample: a portfolio aggregate that is present but `0` is
ignored — `user1TotalUSD` is the asset-list sum `5`, not the supplied
aggregate `0`, because `||` treats a zero aggregate as falsy. -/
theorem zero_aggregate_not_used :
    aggTotalBalanceUSD portfolioZeroAgg = some 0 ∧
    (calculateSimilarity [assetE5] [] [] portfolioZeroAgg none).user1TotalUSD ≠ 0 := by
  norm_num [calculateSimilarity, aggTotalBalanceUSD, sumBalanceUSD, numOr,
    portfolioZeroAgg, assetE5]

/-- C6 (amended): the upstream aggregate `tokenBalances.totalBalanceUSD`
takes precedence exactly when it is present and nonzero (JS truthy); when it
is absent or zero, the sum of the asset list's `balanceUSD` values is used. -/
theorem total_usd_source (a1 a2 : List Asset) (ca : List CommonAsset)
    (p1 p2 : Option Portfolio) (t : ℚ) :
    (aggTotalBalanceUSD p1 = some t → t ≠ 0 →
      (calculateSimilarity a1 a2 ca p1 p2).user1TotalUSD = t) ∧
    (aggTotalBalanceUSD p1 = none ∨ aggTotalBalanceUSD p1 = some 0 →
      (calculateSimilarity a1 a2 ca p1 p2).user1TotalUSD = sumBalanceUSD a1) ∧
    (aggTotalBalanceUSD p2 = some t → t ≠ 0 →
      (calculateSimilarity a1 a2 ca p1 p2).user2TotalUSD = t) ∧
    (aggTotalBalanceUSD p2 = none ∨ aggTotalBalanceUSD p2 = some 0 →
      (calculateSimilarity a1 a2 ca p1 p2).user2TotalUSD = sumBalanceUSD a2) := by
  refine ⟨fun h ht => ?_, fun h => ?_, fun h ht => ?_, fun h => ?_⟩
  · simp [calculateSimilarity, h, numOr, ht]
  · rcases h with h | h <;> simp [calculateSimilarity, h, numOr]
  · simp [calculateSimilarity, h, numOr, ht]
  · rcases h with h | h <;> simp [calculateSimilarity, h, numOr]

/-- Witness for `total_usd_source`: a nonzero aggregate of `7` is used as
`user1TotalUSD`, and a zero aggregate falls back to the asset-list sum. -/
theorem total_usd_source_witness :
    (aggTotalBalanceUSD portfolioAgg7 = some 7 ∧ (7 : ℚ) ≠ 0 ∧
      (calculateSimilarity [assetE5] [] [] portfolioAgg7 none).user1TotalUSD = 7) ∧
    (aggTotalBalanceUSD portfolioZeroAgg = some 0 ∧
      (calculateSimilarity [assetE5] [] [] portfolioZeroAgg none).user1TotalUSD =
        sumBalanceUSD [assetE5]) :=
  ⟨⟨rfl, by decide,
    (total_usd_source [assetE5] [] [] portfolioAgg7 none 7).1 rfl (by decide)⟩,
   ⟨rfl,
    (total_usd_source [assetE5] [] [] portfolioZeroAgg none 0).2.1 (Or.inr rfl)⟩⟩

/-! ## Claim C3 -/

/-- C3: after `set(k, v, ttlSeconds)` at time `t`, a `get(k)` at any time not
past the entry's expiry `t + ttlSeconds * 1000` returns `v`; a `get(k)` at a
time past the expiry returns a miss (`null`) and evicts the entry as a side
effect of the read, so `keys()` on the resulting cache no longer includes
`k`. -/
theorem cache_ttl_boundary {V : Type} (c : Cache V) (k : String) (v : V)
    (ttlSeconds t t' : ℕ) :
    (¬ t' > t + ttlSeconds * 1000 →
      (cacheGet (cacheSet c k (some v) ttlSeconds t) k t').1 = some v) ∧
    (t' > t + ttlSeconds * 1000 →
      (cacheGet (cacheSet c k (some v) ttlSeconds t) k t').1 = none ∧
      k ∉ cacheKeys (cacheGet (cacheSet c k (some v) ttlSeconds t) k t').2) := by
  have hlook : mapGet (cacheSet c k (some v) ttlSeconds t) k
      = some ⟨some v, t + ttlSeconds * 1000⟩ := by
    simp [cacheSet, mapGet_mapSet]
  constructor
  · intro h
    simp [cacheGet, hlook, h]
  · intro h
    refine ⟨by simp [cacheGet, hlook, h], ?_⟩
    simp only [cacheGet, hlook, if_pos h, cacheKeys]
    exact mapKeys_mapDel_not_mem _ _

/-- Witness for `cache_ttl_boundary`: `set("k", 7, ttl = 1)` at time `0`, a
hit at `500` ms and an evicting miss at `1500` ms. -/
theorem cache_ttl_boundary_witness :
    (¬ (500 > 0 + 1 * 1000) ∧
      (cacheGet (cacheSet ([] : Cache ℕ) "k" (some 7) 1 0) "k" 500).1 = some 7) ∧
    ((1500 > 0 + 1 * 1000) ∧
      (cacheGet (cacheSet ([] : Cache ℕ) "k" (some 7) 1 0) "k" 1500).1 = none ∧
      "k" ∉ cacheKeys (cacheGet (cacheSet ([] : Cache ℕ) "k" (some 7) 1 0) "k" 1500).2) :=
  ⟨⟨by decide, (cache_ttl_boundary ([] : Cache ℕ) "k" 7 1 0 500).1 (by decide)⟩,
   ⟨by decide, (cache_ttl_boundary ([] : Cache ℕ) "k" 7 1 0 1500).2 (by decide)⟩⟩

/-! ## Claim C10 -/

/-- C10: an unexpired cache entry whose stored value is `null` behaves on
`get` exactly like an absent key (both return `null`), so `withCache`
invokes its producer again; and when the producer resolves to `null` the
freshly stored entry again holds `null`, so every subsequent `withCache`
call for that key invokes the producer as well — a cached `null` is never
served as a hit. -/
theorem cached_null_never_hit {V : Type} (c : Cache V) (k : String)
    (e : CacheVal V) (now ttlSeconds : ℕ) (r : Option V)
    (hentry : mapGet c k = some e) (hnull : e.value = none)
    (hfresh : ¬ now > e.expiry) :
    (cacheGet c k now).1 = none ∧
    (cacheGet (mapDel c k) k now).1 = none ∧
    (withCache c k r ttlSeconds now).2.2 = true ∧
    mapGet (withCache c k none ttlSeconds now).2.1 k
      = some ⟨none, now + ttlSeconds * 1000⟩ := by
  have hget : cacheGet c k now = (none, c) := by
    simp [cacheGet, hentry, hfresh, hnull]
  refine ⟨by simp [hget], ?_, ?_, ?_⟩
  · simp [cacheGet, mapGet_mapDel_self]
  · simp [withCache, hget]
  · simp [withCache, hget, cacheSet, mapGet_mapSet]

/-- Witness for `cached_null_never_hit`: a cache holding a stored `null`
under `"k"` with expiry `1000`, read at time `500`. -/
theorem cached_null_never_hit_witness :
    (mapGet ([("k", (⟨none, 1000⟩ : CacheVal ℕ))] : Cache ℕ) "k"
        = some ⟨none, 1000⟩ ∧ ¬ (500 > 1000)) ∧
    (cacheGet ([("k", (⟨none, 1000⟩ : CacheVal ℕ))] : Cache ℕ) "k" 500).1 = none ∧
    (withCache ([("k", (⟨none, 1000⟩ : CacheVal ℕ))] : Cache ℕ) "k" (some 3) 5 500).2.2
      = true :=
  ⟨⟨by decide, by decide⟩,
   (cached_null_never_hit ([("k", ⟨none, 1000⟩)] : Cache ℕ) "k" ⟨none, 1000⟩ 500 5
      (some 3) (by decide) rfl (by decide)).1,
   (cached_null_never_hit ([("k", ⟨none, 1000⟩)] : Cache ℕ) "k" ⟨none, 1000⟩ 500 5
      (some 3) (by decide) rfl (by decide)).2.2.1⟩

/-! ## Claim C4 -/

/-- C4: for a default-threshold endpoint (neither `/frame/validate` nor a
signer endpoint), once the endpoint's counter has reached 300 recorded
requests in the current (unexpired) one-minute window while the global
counter sits at 300, `checkRateLimit` answers `false`; at any time past the
window's reset time it answers `true` again, the window's counter having
been reset entirely to zero. -/
theorem rate_limit_window_reset (e : String) (st : RLState) (now now' r rt : ℕ)
    (hv : e ≠ "/frame/validate") (hs : strIncludes e "/signer" = false)
    (hentry : mapGet st.rateLimits e = some ⟨r, rt⟩)
    (hr : 300 ≤ r) (hnow : ¬ now > rt) (hgr : ¬ now > st.globalResetTime)
    (hg : st.globalRequestCount = 300) (hnow' : now' > rt) :
    (checkRateLimit e now st).1 = false ∧
    (checkRateLimit e now' st).1 = true ∧
    mapGet (checkRateLimit e now' st).2.rateLimits e = some ⟨0, now' + 60000⟩ := by
  have hlim : endpointLimit e = 300 := by
    simp [endpointLimit, hv, hs]
  have hnr : ¬ r < 300 := Nat.not_lt.mpr hr
  refine ⟨?_, ?_, ?_⟩
  · simp [checkRateLimit, hgr, hentry, hnow, hlim, hnr]
  · by_cases hgc : now' > st.globalResetTime <;>
      simp [checkRateLimit, hgc, hentry, hnow', mapGet_mapSet, hlim, hg]
  · by_cases hgc : now' > st.globalResetTime <;>
      simp [checkRateLimit, hgc, hentry, hnow', mapGet_mapSet]

/-- Witness for `rate_limit_window_reset`: endpoint `"/user/bulk"` whose
entry shows 300 requests with the window resetting at `1000`, global counter
300 with the global window resetting at `2000`; checked at `900` (inside the
window) and at `1500` (past it). -/
theorem rate_limit_window_reset_witness :
    (mapGet (RLState.mk [("/user/bulk", ⟨300, 1000⟩)] 300 2000).rateLimits "/user/bulk"
        = some ⟨300, 1000⟩ ∧
      ¬ (900 > 1000) ∧ ¬ (900 > 2000) ∧ (1500 > 1000)) ∧
    (checkRateLimit "/user/bulk" 900 (RLState.mk [("/user/bulk", ⟨300, 1000⟩)] 300 2000)).1
      = false ∧
    (checkRateLimit "/user/bulk" 1500 (RLState.mk [("/user/bulk", ⟨300, 1000⟩)] 300 2000)).1
      = true ∧
    mapGet (checkRateLimit "/user/bulk" 1500
        (RLState.mk [("/user/bulk", ⟨300, 1000⟩)] 300 2000)).2.rateLimits "/user/bulk"
      = some ⟨0, 1500 + 60000⟩ :=
  ⟨⟨by decide, by decide, by decide, by decide⟩,
   rate_limit_window_reset "/user/bulk" (RLState.mk [("/user/bulk", ⟨300, 1000⟩)] 300 2000)
     900 1500 300 1000 (by decide) (by decide) (by decide) (by decide) (by decide)
     (by decide) (by decide) (by decide)⟩

/-! ## Claim C5 -/

/-- C5 counterexample: `checkRateLimit` is not mutation-free — on a state
whose endpoint window has expired, the call resets that endpoint's counter
and reset time, changing the state. -/
theorem check_rate_limit_mutates :
    (checkRateLimit "a" 2000 (RLState.mk [("a", ⟨5, 1000⟩)] 7 100000)).2
      ≠ RLState.mk [("a", ⟨5, 1000⟩)] 7 100000 := by
  decide

/-- C5 (amended): `checkRateLimit` never increments any counter — the global
count never grows, and every per-endpoint entry after the call either has a
zeroed counter (a freshly reset or initialized window) or is exactly an
entry that was already present; moreover, when the probed endpoint has an
existing unexpired window and the global window is unexpired, the state is
left entirely unchanged. -/
theorem check_rate_limit_no_increment (e : String) (now : ℕ) (st : RLState) :
    ((∃ ent, mapGet st.rateLimits e = some ent ∧ ¬ now > ent.resetTime) →
      ¬ now > st.globalResetTime → (checkRateLimit e now st).2 = st) ∧
    (checkRateLimit e now st).2.globalRequestCount ≤ st.globalRequestCount ∧
    (∀ k ent', mapGet (checkRateLimit e now st).2.rateLimits k = some ent' →
      ent'.requests = 0 ∨ mapGet st.rateLimits k = some ent') := by
  have hshape : ((checkRateLimit e now st).2.globalRequestCount = st.globalRequestCount ∨
      (checkRateLimit e now st).2.globalRequestCount = 0) ∧
      ((checkRateLimit e now st).2.rateLimits = st.rateLimits ∨
      (checkRateLimit e now st).2.rateLimits = mapSet st.rateLimits e ⟨0, now + 60000⟩) := by
    by_cases hgc : now > st.globalResetTime <;>
      cases hent : mapGet st.rateLimits e with
      | none => simp [checkRateLimit, hgc, hent]
      | some ent =>
        by_cases hfr : now > ent.resetTime <;> simp [checkRateLimit, hgc, hent, hfr]
  refine ⟨?_, ?_, ?_⟩
  · rintro ⟨ent, hent, hfresh⟩ hg
    simp [checkRateLimit, hg, hent, hfresh]
  · rcases hshape.1 with h | h <;> rw [h]
    exact Nat.zero_le _
  · intro k ent' hk
    rcases hshape.2 with h | h
    · exact Or.inr (h ▸ hk)
    · rw [h, mapGet_mapSet] at hk
      by_cases hke : k = e
      · rw [if_pos hke] at hk
        exact Or.inl (by cases hk; rfl)
      · rw [if_neg hke] at hk
        exact Or.inr hk

/-- Witness for `check_rate_limit_no_increment`: a state whose endpoint
entry and global window are both unexpired at time `100` is returned
unchanged. -/
theorem check_rate_limit_no_increment_witness :
    (mapGet (RLState.mk [("a", ⟨5, 9999⟩)] 7 9999).rateLimits "a" = some ⟨5, 9999⟩ ∧
      ¬ (100 > 9999)) ∧
    (checkRateLimit "a" 100 (RLState.mk [("a", ⟨5, 9999⟩)] 7 9999)).2
      = RLState.mk [("a", ⟨5, 9999⟩)] 7 9999 :=
  ⟨⟨by decide, by decide⟩,
   (check_rate_limit_no_increment "a" 100 (RLState.mk [("a", ⟨5, 9999⟩)] 7 9999)).1
     ⟨⟨5, 9999⟩, by decide, by decide⟩ (by decide)⟩

/-! ## Claim C7 -/

theorem filter_orderedInsert_of_eq (t : ℚ) (x : CommonAsset) (l : List CommonAsset)
    (hx : x.totalBalanceUSD = t) :
    (List.orderedInsert byTotalDesc x l).filter (fun c => decide (c.totalBalanceUSD = t))
      = x :: l.filter (fun c => decide (c.totalBalanceUSD = t)) := by
  induction l with
  | nil => simp [List.orderedInsert, hx]
  | cons b l ih =>
    by_cases h : byTotalDesc x b
    · simp [List.orderedInsert, h, hx]
    · have hxb : x.totalBalanceUSD < b.totalBalanceUSD := not_le.mp h
      have hb : ¬ b.totalBalanceUSD = t := by
        intro hbt
        rw [hbt, ← hx] at hxb
        exact lt_irrefl _ hxb
      simp [List.orderedInsert, h, hb, ih]

theorem filter_orderedInsert_of_ne (t : ℚ) (x : CommonAsset) (l : List CommonAsset)
    (hx : ¬ x.totalBalanceUSD = t) :
    (List.orderedInsert byTotalDesc x l).filter (fun c => decide (c.totalBalanceUSD = t))
      = l.filter (fun c => decide (c.totalBalanceUSD = t)) := by
  induction l with
  | nil => simp [List.orderedInsert, hx]
  | cons b l ih =>
    by_cases h : byTotalDesc x b
    · simp [List.orderedInsert, h, hx]
    · simp only [List.orderedInsert, if_neg h]
      rw [List.filter_cons, List.filter_cons, ih]

theorem filter_insertionSort_total (t : ℚ) (l : List CommonAsset) :
    (List.insertionSort byTotalDesc l).filter (fun c => decide (c.totalBalanceUSD = t))
      = l.filter (fun c => decide (c.totalBalanceUSD = t)) := by
  induction l with
  | nil => rfl
  | cons x l ih =>
    by_cases hx : x.totalBalanceUSD = t
    · rw [List.insertionSort, filter_orderedInsert_of_eq t x _ hx, ih]
      simp [hx]
    · rw [List.insertionSort, filter_orderedInsert_of_ne t x _ hx, ih]
      simp [hx]

/-- Three assets on wallet A with USD values 5, 15, 15; together with
`stB1`-`stB3` they produce common assets valued 10, 30, 30 in input order. -/
def stA1 : Asset :=
  { address := some "0xS1", network := "ethereum", symbol := some "S1"
    name := "S1", balance := "1", balanceUSD := 5, price := 0, imgUrl := "" }

def stA2 : Asset :=
  { address := some "0xS2", network := "ethereum", symbol := some "S2"
    name := "S2", balance := "1", balanceUSD := 15, price := 0, imgUrl := "" }

def stA3 : Asset :=
  { address := some "0xS3", network := "ethereum", symbol := some "S3"
    name := "S3", balance := "1", balanceUSD := 15, price := 0, imgUrl := "" }

def stB1 : Asset :=
  { address := some "0xS1", network := "ethereum", symbol := some "S1"
    name := "S1", balance := "2", balanceUSD := 5, price := 0, imgUrl := "" }

def stB2 : Asset :=
  { address := some "0xS2", network := "ethereum", symbol := some "S2"
    name := "S2", balance := "2", balanceUSD := 15, price := 0, imgUrl := "" }

def stB3 : Asset :=
  { address := some "0xS3", network := "ethereum", symbol := some "S3"
    name := "S3", balance := "2", balanceUSD := 15, price := 0, imgUrl := "" }

/-- C7: the matcher's output is ordered by `totalBalanceUSD` descending; the
sort is stable with respect to the pre-sort `common` list (which follows
`assetsA`'s order): for every value `t` the common assets valued `t` appear
in the same relative order as before sorting; and on the valuations
`[A(10), B(30), C(30)]` the output is `[B, C, A]`. -/
theorem common_assets_sorted_stable :
    (∀ a1 a2 : List Asset, List.Sorted byTotalDesc (findCommonAssets a1 a2)) ∧
    (∀ (a1 a2 : List Asset) (t : ℚ),
      (findCommonAssets a1 a2).filter (fun c => decide (c.totalBalanceUSD = t))
        = (commonUnsorted a1 a2).filter (fun c => decide (c.totalBalanceUSD = t))) ∧
    findCommonAssets [stA1, stA2, stA3] [stB1, stB2, stB3]
      = [mkCommonAsset stA2 stB2, mkCommonAsset stA3 stB3, mkCommonAsset stA1 stB1] := by
  refine ⟨fun a1 a2 => List.sorted_insertionSort byTotalDesc _,
    fun a1 a2 t => filter_insertionSort_total t _, ?_⟩
  norm_num [findCommonAssets, commonUnsorted, buildAssetMap, mapGet, mapSet,
    getAssetKey, undefinedStr, mkCommonAsset, List.insertionSort, List.orderedInsert,
    byTotalDesc, stA1, stA2, stA3, stB1, stB2, stB3]

/-! ## Claim C8 -/

theorem buildMap_foldl_some (B : List Asset) :
    ∀ (m : List (String × Asset)) (k : String) (b : Asset),
      mapGet (B.foldl (fun m asset => mapSet m (getAssetKey asset) asset) m) k = some b →
      mapGet m k = some b ∨ (b ∈ B ∧ getAssetKey b = k) := by
  induction B with
  | nil => exact fun m k b h => Or.inl h
  | cons a B ih =>
    intro m k b h
    rw [List.foldl_cons] at h
    rcases ih _ k b h with h' | h'
    · rw [mapGet_mapSet] at h'
      by_cases hk : k = getAssetKey a
      · rw [if_pos hk] at h'
        refine Or.inr ⟨?_, ?_⟩
        · rw [← Option.some.inj h']
          exact List.mem_cons_self a B
        · rw [← Option.some.inj h', hk]
      · rw [if_neg hk] at h'
        exact Or.inl h'
    · exact Or.inr ⟨List.mem_cons_of_mem a h'.1, h'.2⟩

theorem buildMap_foldl_isSome (B : List Asset) :
    ∀ (m : List (String × Asset)) (k : String),
      (mapGet (B.foldl (fun m asset => mapSet m (getAssetKey asset) asset) m) k).isSome ↔
      (mapGet m k).isSome ∨ ∃ b ∈ B, getAssetKey b = k := by
  induction B with
  | nil => simp
  | cons a B ih =>
    intro m k
    rw [List.foldl_cons, ih]
    constructor
    · rintro (h | h)
      · rw [mapGet_mapSet] at h
        by_cases hk : k = getAssetKey a
        · exact Or.inr ⟨a, List.mem_cons_self a B, hk.symm⟩
        · rw [if_neg hk] at h
          exact Or.inl h
      · obtain ⟨b, hb, hbk⟩ := h
        exact Or.inr ⟨b, List.mem_cons_of_mem a hb, hbk⟩
    · rintro (h | ⟨b, hb, hbk⟩)
      · left
        rw [mapGet_mapSet]
        by_cases hk : k = getAssetKey a
        · rw [if_pos hk]
          rfl
        · rw [if_neg hk]
          exact h
      · rcases List.mem_cons.mp hb with rfl | hb'
        · left
          rw [mapGet_mapSet, if_pos hbk.symm]
          rfl
        · exact Or.inr ⟨b, hb', hbk⟩

theorem buildMap_foldl_skip (B : List Asset) :
    ∀ (m : List (String × Asset)) (k : String), (∀ b ∈ B, getAssetKey b ≠ k) →
      mapGet (B.foldl (fun m asset => mapSet m (getAssetKey asset) asset) m) k = mapGet m k := by
  induction B with
  | nil => exact fun m k _ => rfl
  | cons a B ih =>
    intro m k h
    rw [List.foldl_cons, ih _ k (fun b hb => h b (List.mem_cons_of_mem a hb)),
      mapGet_mapSet, if_neg (fun hk : k = getAssetKey a => h a (List.mem_cons_self a B) hk.symm)]

theorem buildMap_foldl_nodup_get (B : List Asset) :
    ∀ (m : List (String × Asset)), (B.map getAssetKey).Nodup →
      ∀ b ∈ B, mapGet (B.foldl (fun m asset => mapSet m (getAssetKey asset) asset) m)
        (getAssetKey b) = some b := by
  induction B with
  | nil => intro m _ b hb; cases hb
  | cons a B ih =>
    intro m hnd b hb
    rw [List.map_cons, List.nodup_cons] at hnd
    rw [List.foldl_cons]
    rcases List.mem_cons.mp hb with rfl | hb'
    · have hskip : ∀ b' ∈ B, getAssetKey b' ≠ getAssetKey b := by
        intro b' hb' heq
        exact hnd.1 (heq ▸ List.mem_map_of_mem getAssetKey hb')
      rw [buildMap_foldl_skip B _ _ hskip, mapGet_mapSet, if_pos rfl]
    · exact ih _ hnd.2 b hb'

theorem buildAssetMap_get_mem {B : List Asset} {k : String} {b : Asset}
    (h : mapGet (buildAssetMap B) k = some b) : b ∈ B ∧ getAssetKey b = k := by
  rcases buildMap_foldl_some B [] k b h with h' | h'
  · exact Option.noConfusion h'
  · exact h'

theorem buildAssetMap_isSome {B : List Asset} {k : String} :
    (mapGet (buildAssetMap B) k).isSome ↔ ∃ b ∈ B, getAssetKey b = k := by
  rw [buildAssetMap, buildMap_foldl_isSome]
  simp [mapGet]

theorem buildAssetMap_get_self {B : List Asset} (hnd : (B.map getAssetKey).Nodup)
    {b : Asset} (hb : b ∈ B) :
    mapGet (buildAssetMap B) (getAssetKey b) = some b :=
  buildMap_foldl_nodup_get B [] hnd b hb

theorem mem_commonUnsorted {A B : List Asset} {c : CommonAsset} :
    c ∈ commonUnsorted A B ↔
      ∃ a ∈ A, ∃ b, mapGet (buildAssetMap B) (getAssetKey a) = some b ∧
        mkCommonAsset a b = c := by
  simp [commonUnsorted, List.mem_filterMap, Option.map_eq_some']

theorem mem_keys_findCommonAssets {A B : List Asset} {k : String} :
    k ∈ (findCommonAssets A B).map commonAssetKey ↔
      (∃ a ∈ A, getAssetKey a = k) ∧ (∃ b ∈ B, getAssetKey b = k) := by
  constructor
  · intro h
    obtain ⟨c, hc, hck⟩ := List.mem_map.mp h
    have hc' : c ∈ commonUnsorted A B :=
      (List.mem_insertionSort byTotalDesc).mp hc
    obtain ⟨a, ha, b, hget, rfl⟩ := mem_commonUnsorted.mp hc'
    have hbB := buildAssetMap_get_mem hget
    have hkey : commonAssetKey (mkCommonAsset a b) = getAssetKey a := rfl
    exact ⟨⟨a, ha, by rw [← hck, hkey]⟩, ⟨b, hbB.1, by rw [hbB.2, ← hck, hkey]⟩⟩
  · rintro ⟨⟨a, ha, hak⟩, ⟨b, hb, hbk⟩⟩
    have hsome : (mapGet (buildAssetMap B) k).isSome :=
      buildAssetMap_isSome.mpr ⟨b, hb, hbk⟩
    obtain ⟨b', hb'⟩ := Option.isSome_iff_exists.mp hsome
    refine List.mem_map.mpr ⟨mkCommonAsset a b', ?_, hak⟩
    exact (List.mem_insertionSort byTotalDesc).mpr
      (mem_commonUnsorted.mpr ⟨a, ha, b', by rw [hak]; exact hb', rfl⟩)

theorem match_swap_entry (A B : List Asset) (hA : (A.map getAssetKey).Nodup) :
    ∀ c ∈ findCommonAssets A B, ∃ c' ∈ findCommonAssets B A,
      commonAssetKey c' = commonAssetKey c ∧
      c'.user1Balance = c.user2Balance ∧ c'.user2Balance = c.user1Balance := by
  intro c hc
  obtain ⟨a, ha, b, hget, rfl⟩ :=
    mem_commonUnsorted.mp ((List.mem_insertionSort byTotalDesc).mp hc)
  have hbB := buildAssetMap_get_mem hget
  refine ⟨mkCommonAsset b a, ?_, hbB.2, rfl, rfl⟩
  apply (List.mem_insertionSort byTotalDesc).mpr
  apply mem_commonUnsorted.mpr
  refine ⟨b, hbB.1, a, ?_, rfl⟩
  rw [hbB.2]
  exact buildAssetMap_get_self hA ha

/-- C8: for any two asset lists `A` and `B`, `findCommonAssets A B` and
`findCommonAssets B A` carry exactly the same set of identity keys
(`network:address`); and when neither list has duplicate identity keys the
`user1Balance`/`user2Balance` fields swap sides between the two results. -/
theorem match_symmetry (A B : List Asset) :
    (∀ k, k ∈ (findCommonAssets A B).map commonAssetKey ↔
      k ∈ (findCommonAssets B A).map commonAssetKey) ∧
    ((A.map getAssetKey).Nodup → (B.map getAssetKey).Nodup →
      (∀ c ∈ findCommonAssets A B, ∃ c' ∈ findCommonAssets B A,
        commonAssetKey c' = commonAssetKey c ∧
        c'.user1Balance = c.user2Balance ∧ c'.user2Balance = c.user1Balance) ∧
      (∀ c ∈ findCommonAssets B A, ∃ c' ∈ findCommonAssets A B,
        commonAssetKey c' = commonAssetKey c ∧
        c'.user1Balance = c.user2Balance ∧ c'.user2Balance = c.user1Balance)) := by
  refine ⟨fun k => ?_, fun hA hB => ⟨match_swap_entry A B hA, match_swap_entry B A hB⟩⟩
  rw [mem_keys_findCommonAssets, mem_keys_findCommonAssets]
  exact and_comm

/-- Witness for `match_symmetry`: the duplicate-free single-asset wallets of
the exact-overlap scenario. -/
theorem match_symmetry_witness :
    (([assetA100].map getAssetKey).Nodup ∧ ([assetB50].map getAssetKey).Nodup) ∧
    (∀ c ∈ findCommonAssets [assetA100] [assetB50],
      ∃ c' ∈ findCommonAssets [assetB50] [assetA100],
        commonAssetKey c' = commonAssetKey c ∧
        c'.user1Balance = c.user2Balance ∧ c'.user2Balance = c.user1Balance) :=
  ⟨⟨by decide, by decide⟩,
   ((match_symmetry [assetA100] [assetB50]).2 (by decide) (by decide)).1⟩

/-! ## Claim C9 -/

/-- C9 counterexample: `extractTokenAssets` is not total on raw input — a
`null` element inside the `edges` array makes `edge.node` raise a
`TypeError`, so "never raises an error" fails. -/
theorem normalize_raises_on_null_edge :
    extractTokenAssets (some ⟨some ⟨none, some ⟨some [none]⟩⟩⟩) = .error () :=
  rfl

/-- A token node with every optional field absent. -/
def emptyTokenNode : TokenNode :=
  ⟨none, none, none, none, none, none, none, none⟩

/-- A token node with only a symbol, to exhibit the `name` default chain. -/
def symOnlyTokenNode : TokenNode :=
  ⟨none, none, some "SYM", none, none, none, none, none⟩

/-- C9 (amended): `extractTokenAssets` raises no error as long as the
`edges` array contains no nullish entries (a nullish edge raises a
`TypeError`, see `normalize_raises_on_null_edge`); when the expected nesting
is missing it returns the empty list; and each emitted token defaults absent
fields as: network to `"unknown"`, name to the symbol or `"Unknown Token"`,
balance to `"0"`, balanceUSD to `0`, price to `0`, and the image URL to the
empty string. -/
theorem normalize_defaults :
    extractTokenAssets none = .ok [] ∧
    extractTokenAssets (some ⟨none⟩) = .ok [] ∧
    (∀ agg : Option ℚ, extractTokenAssets (some ⟨some ⟨agg, none⟩⟩) = .ok []) ∧
    (∀ agg : Option ℚ, extractTokenAssets (some ⟨some ⟨agg, some ⟨none⟩⟩⟩) = .ok []) ∧
    (∀ (agg : Option ℚ) (edges : List EdgeObj),
      extractTokenAssets (some ⟨some ⟨agg, some ⟨some (edges.map some)⟩⟩⟩)
        = .ok ((edges.filterMap EdgeObj.node).map mkTokenAsset)) ∧
    (∀ token : TokenNode,
      (token.network = none → (mkTokenAsset token).network = "unknown") ∧
      (token.name = none → token.symbol = none →
        (mkTokenAsset token).name = "Unknown Token") ∧
      (∀ s, token.name = none → token.symbol = some s → s ≠ "" →
        (mkTokenAsset token).name = s) ∧
      (token.balance = none → (mkTokenAsset token).balance = "0") ∧
      (token.balanceUSD = none → (mkTokenAsset token).balanceUSD = 0) ∧
      (token.price = none → (mkTokenAsset token).price = 0) ∧
      (token.imgUrlV2 = none → (mkTokenAsset token).imgUrl = "")) := by
  refine ⟨rfl, rfl, fun agg => rfl, fun agg => rfl, fun agg edges => ?_, fun token => ?_⟩
  · induction edges with
    | nil => rfl
    | cons e es ih =>
      simp only [extractTokenAssets, Option.getD_some] at ih ⊢
      rw [List.map_cons]
      cases hn : e.node with
      | some tok =>
        simp only [extractFromEdges, hn, List.filterMap_cons]
        rw [ih]
        rfl
      | none =>
        simp only [extractFromEdges, hn, List.filterMap_cons]
        exact ih
  · refine ⟨fun h1 => ?_, fun h1 h2 => ?_, fun s h1 h2 hs => ?_,
      fun h1 => ?_, fun h1 => ?_, fun h1 => ?_, fun h1 => ?_⟩
    · simp [mkTokenAsset, h1, strOr]
    · simp [mkTokenAsset, h1, h2, strOr]
    · simp [mkTokenAsset, h1, h2, strOr, hs]
    · simp [mkTokenAsset, h1, strOr]
    · simp [mkTokenAsset, h1, numOr]
    · simp [mkTokenAsset, h1, numOr]
    · simp [mkTokenAsset, h1, strOr]

/-- Witness for `normalize_defaults`: the all-absent token node takes every
default, a symbol-only node names itself after the symbol, and a one-edge
portfolio extracts exactly that node's asset. -/
theorem normalize_defaults_witness :
    (emptyTokenNode.network = none ∧ (mkTokenAsset emptyTokenNode).network = "unknown") ∧
    (emptyTokenNode.name = none ∧ emptyTokenNode.symbol = none ∧
      (mkTokenAsset emptyTokenNode).name = "Unknown Token") ∧
    (symOnlyTokenNode.symbol = some "SYM" ∧ "SYM" ≠ "" ∧
      (mkTokenAsset symOnlyTokenNode).name = "SYM") ∧
    (mkTokenAsset emptyTokenNode).balance = "0" ∧
    (mkTokenAsset emptyTokenNode).balanceUSD = 0 ∧
    (mkTokenAsset emptyTokenNode).price = 0 ∧
    (mkTokenAsset emptyTokenNode).imgUrl = "" ∧
    extractTokenAssets (some ⟨some ⟨none, some ⟨some [some ⟨some emptyTokenNode⟩]⟩⟩⟩)
      = .ok [mkTokenAsset emptyTokenNode] :=
  ⟨⟨rfl, (normalize_defaults.2.2.2.2.2 emptyTokenNode).1 rfl⟩,
   ⟨rfl, rfl, (normalize_defaults.2.2.2.2.2 emptyTokenNode).2.1 rfl rfl⟩,
   ⟨rfl, by decide,
    (normalize_defaults.2.2.2.2.2 symOnlyTokenNode).2.2.1 "SYM" rfl rfl (by decide)⟩,
   (normalize_defaults.2.2.2.2.2 emptyTokenNode).2.2.2.1 rfl,
   (normalize_defaults.2.2.2.2.2 emptyTokenNode).2.2.2.2.1 rfl,
   (normalize_defaults.2.2.2.2.2 emptyTokenNode).2.2.2.2.2.1 rfl,
   (normalize_defaults.2.2.2.2.2 emptyTokenNode).2.2.2.2.2.2 rfl,
   normalize_defaults.2.2.2.2.1 none [⟨some emptyTokenNode⟩]⟩
